import Mathlib

/-!
Shallow embedding of the solver-driver core of the `services` repository.

Part 1: the block-driven solve loop (`Driver::solve_until_deadline` in
`crates/driver/src/driver.rs`).

The Rust loop consumes a tokio `WatchStream` over the current-block channel,
sequentially maps each observed block through
`compute_solution_for_block` (= `block_number`, then
`converter.convert_auction`, then `solver.commit`), and in a `select!` races
the next computed result against a deadline timer.  We model a run of that
loop as a fold of a step function over an explicit event trace:

  * `Ev.send b`       — the producer publishes block `b` on the watch channel;
  * `Ev.poll`         — the loop begins its next iteration: if the channel
                        holds a value not yet seen (or this is the very first
                        poll, since a `WatchStream` yields the current value
                        immediately) the block is consumed and the whole
                        computation for it runs to completion; if no new value
                        is available and the sender was dropped the stream
                        yields `None` and the loop returns; otherwise the poll
                        pends and nothing happens;
  * `Ev.dropSend`     — the sender side of the watch channel is dropped;
  * `Ev.deadline`     — the `sleep_until(deadline)` timer fires.

State components mirror the Rust loop: `latest`/`version` are the watch
channel, `seen` is the consumer's observed version (`none` before the first
poll), `current` is `current_solution`, and `returned` is set exactly when
the Rust function returns.  `resultsLog` and `consumed` are ghost logs of
every computed result and every block actually passed to the computation.
-/

/-- `shared::current_block::Block`: only the optional `number` field is read
by the driver (via `block_number`). -/
structure Block where
  number : Option Nat
deriving DecidableEq, Repr

/-- `shared::current_block::block_number`: errors with "no block number" when
the block has no number. -/
def block_number (b : Block) : Except String Nat :=
  match b.number with
  | some n => Except.ok n
  | none => Except.error "no block number"

/-- The collaborators of `solve_until_deadline`: the auction being solved, the
`AuctionConverting` trait object and the `CommitRevealSolving` trait object.
`A` is `AuctionWithId`, `S` is `solver::solver::Auction`, `σ` is
`SettlementSummary`; the loop treats all three generically. -/
structure SolveEnv (A S σ : Type) where
  auction : A
  convert_auction : A → Nat → Except String S
  commit : S → Except String σ

/-- `Driver::compute_solution_for_block`: extract the block number, convert
the auction against it, and commit. -/
def compute_solution_for_block {A S σ : Type} (env : SolveEnv A S σ) (b : Block) :
    Except String σ := do
  let n ← block_number b
  let a ← env.convert_auction env.auction n
  env.commit a

/-- One interleaving event of a `solve_until_deadline` run. -/
inductive Ev where
  | send (b : Block)
  | poll
  | dropSend
  | deadline
deriving DecidableEq, Repr

/-- The sentinel with which `current_solution` is initialised. -/
def deadlineSentinel {σ : Type} : Except String σ :=
  Except.error "reached the deadline without a result"

/-- State of a `solve_until_deadline` run. -/
structure LoopState (σ : Type) where
  latest : Block
  version : Nat
  seen : Option Nat
  dropped : Bool
  current : Except String σ
  resultsLog : List (Except String σ)
  consumed : List Block
  returned : Option (Except String σ)

/-- Initial state: the watch channel is seeded with `seed`, no value observed
yet, `current_solution` holds the deadline sentinel. -/
def initState {σ : Type} (seed : Block) : LoopState σ :=
  { latest := seed
    version := 0
    seen := none
    dropped := false
    current := deadlineSentinel
    resultsLog := []
    consumed := []
    returned := none }

/-- A `WatchStream` poll yields a value iff it is the first poll (the stream
starts with the current value) or the channel version advanced since the last
observed one. -/
def newValueAvailable {σ : Type} (s : LoopState σ) : Bool :=
  match s.seen with
  | none => true
  | some v => decide (v < s.version)

/-- One step of the loop semantics.  After the function has returned
(`returned.isSome`) every event is a no-op. -/
def stepLoop {A S σ : Type} (env : SolveEnv A S σ) (s : LoopState σ) : Ev → LoopState σ
  | Ev.send b =>
      if s.returned.isSome then s
      else { s with latest := b, version := s.version + 1 }
  | Ev.dropSend =>
      if s.returned.isSome then s
      else { s with dropped := true }
  | Ev.deadline =>
      if s.returned.isSome then s
      else { s with returned := some s.current }
  | Ev.poll =>
      if s.returned.isSome then s
      else if newValueAvailable s then
        let r := compute_solution_for_block env s.latest
        { s with
            seen := some s.version
            current := r
            resultsLog := s.resultsLog ++ [r]
            consumed := s.consumed ++ [s.latest] }
      else if s.dropped then { s with returned := some s.current }
      else s

/-- A whole run of `solve_until_deadline` over an event trace. -/
def runLoop {A S σ : Type} (env : SolveEnv A S σ) (seed : Block) (evs : List Ev) :
    LoopState σ :=
  evs.foldl (stepLoop env) (initState seed)

/-- Blocks published on the watch channel during a trace, in order. -/
def sentBlocks : List Ev → List Block
  | [] => []
  | Ev.send b :: rest => b :: sentBlocks rest
  | _ :: rest => sentBlocks rest

section LoopInvariants

variable {A S σ : Type}

/-- The loop invariant tying `current_solution` to the log of computed
results, and the returned value to `current_solution`. -/
def LoopInv (s : LoopState σ) : Prop :=
  s.current = s.resultsLog.getLastD deadlineSentinel ∧
  (∀ r, s.returned = some r → r = s.current)

lemma loopInv_init (seed : Block) : LoopInv (initState (σ := σ) seed) := by
  constructor
  · rfl
  · intro r h
    simp [initState] at h

lemma loopInv_step (env : SolveEnv A S σ) (s : LoopState σ) (e : Ev)
    (h : LoopInv s) : LoopInv (stepLoop env s e) := by
  obtain ⟨hcur, hret⟩ := h
  cases e with
  | send b =>
      by_cases hr : s.returned.isSome
      · simpa [stepLoop, hr] using ⟨hcur, hret⟩
      · refine ⟨by simpa [stepLoop, hr] using hcur, ?_⟩
        intro r hrr
        simp only [stepLoop, hr, if_false] at hrr ⊢
        exact hret r hrr
  | dropSend =>
      by_cases hr : s.returned.isSome
      · simpa [stepLoop, hr] using ⟨hcur, hret⟩
      · refine ⟨by simpa [stepLoop, hr] using hcur, ?_⟩
        intro r hrr
        simp only [stepLoop, hr, if_false] at hrr ⊢
        exact hret r hrr
  | deadline =>
      by_cases hr : s.returned.isSome
      · simpa [stepLoop, hr] using ⟨hcur, hret⟩
      · refine ⟨by simpa [stepLoop, hr] using hcur, ?_⟩
        intro r hrr
        simp only [stepLoop, hr, if_false] at hrr
        injection hrr with hrr
        simpa [stepLoop, hr] using hrr.symm
  | poll =>
      by_cases hr : s.returned.isSome
      · simpa [stepLoop, hr] using ⟨hcur, hret⟩
      · by_cases hn : newValueAvailable s
        · refine ⟨?_, ?_⟩
          · simp [stepLoop, hr, hn, List.getLastD_concat]
          · intro r hrr
            simp [stepLoop, hr, hn] at hrr
            exact absurd (by simp [hrr] : s.returned.isSome = true) hr
        · by_cases hd : s.dropped
          · refine ⟨by simpa [stepLoop, hr, hn, hd] using hcur, ?_⟩
            intro r hrr
            simp only [stepLoop, hr, hn, hd, if_false, if_true] at hrr
            injection hrr with hrr
            simpa [stepLoop, hr, hn, hd] using hrr.symm
          · simpa [stepLoop, hr, hn, hd] using ⟨hcur, hret⟩

lemma loopInv_run (env : SolveEnv A S σ) (seed : Block) (evs : List Ev) :
    LoopInv (runLoop env seed evs) := by
  rw [runLoop]
  induction evs generalizing seed with
  | nil => exact loopInv_init seed
  | cons e rest ih =>
      rw [List.foldl_cons]
      have h0 : LoopInv (stepLoop env (initState (σ := σ) seed) e) :=
        loopInv_step env _ e (loopInv_init seed)
      clear ih
      generalize stepLoop env (initState (σ := σ) seed) e = s0 at h0
      induction rest generalizing s0 with
      | nil => exact h0
      | cons e' rest' ih' =>
          rw [List.foldl_cons]
          exact ih' _ (loopInv_step env _ e' h0)

end LoopInvariants

section LatestBlock

variable {A S σ : Type}

lemma stepLoop_latest_of_not_send (env : SolveEnv A S σ) (s : LoopState σ) (e : Ev)
    (h : ∀ b, e ≠ Ev.send b) : (stepLoop env s e).latest = s.latest := by
  cases e with
  | send b => exact absurd rfl (h b)
  | poll =>
      by_cases hr : s.returned.isSome <;> by_cases hn : newValueAvailable s <;>
        by_cases hd : s.dropped <;> simp [stepLoop, hr, hn, hd]
  | dropSend => by_cases hr : s.returned.isSome <;> simp [stepLoop, hr]
  | deadline => by_cases hr : s.returned.isSome <;> simp [stepLoop, hr]

lemma stepLoop_frozen (env : SolveEnv A S σ) (s : LoopState σ) (e : Ev)
    (h : s.returned.isSome) : stepLoop env s e = s := by
  cases e <;> simp [stepLoop, h]

lemma sentBlocks_append (l₁ l₂ : List Ev) :
    sentBlocks (l₁ ++ l₂) = sentBlocks l₁ ++ sentBlocks l₂ := by
  induction l₁ with
  | nil => rfl
  | cons e rest ih => cases e <;> simp [sentBlocks, ih]

/-- While the loop is still running, the watch channel holds exactly the most
recently published block (or the seed when nothing was published). -/
lemma latest_eq_lastSent (env : SolveEnv A S σ) (seed : Block) (evs : List Ev)
    (h : (runLoop env seed evs).returned = none) :
    (runLoop env seed evs).latest = (sentBlocks evs).getLastD seed := by
  induction evs using List.reverseRecOn with
  | nil => simp [runLoop, initState, sentBlocks]
  | append_singleton evs e ih =>
      have hfold : runLoop env seed (evs ++ [e])
          = stepLoop env (runLoop env seed evs) e := by
        simp [runLoop, List.foldl_append]
      by_cases hr : (runLoop env seed evs).returned.isSome
      · rw [hfold, stepLoop_frozen env _ e hr] at h
        rw [Option.isSome_iff_exists] at hr
        obtain ⟨r, hr⟩ := hr
        rw [hr] at h
        exact absurd h (by simp)
      · have hnone : (runLoop env seed evs).returned = none :=
          Option.not_isSome_iff_eq_none.mp hr
        have hlat := ih hnone
        rw [hfold]
        cases e with
        | send b =>
            simp [stepLoop, hr, sentBlocks_append, sentBlocks]
        | poll =>
            rw [stepLoop_latest_of_not_send env _ _ (by intro b h; cases h), hlat]
            simp [sentBlocks_append, sentBlocks]
        | dropSend =>
            rw [stepLoop_latest_of_not_send env _ _ (by intro b h; cases h), hlat]
            simp [sentBlocks_append, sentBlocks]
        | deadline =>
            rw [stepLoop_latest_of_not_send env _ _ (by intro b h; cases h), hlat]
            simp [sentBlocks_append, sentBlocks]

end LatestBlock

/-!
Concrete environments used by the witnesses and counterexamples for the
solve-loop claims.  They mirror the mocks of the Rust unit tests: the
converter records the block number it was called with (as the Rust mock
records it in `liquidity_fetch_block`), and the solver either returns that
number as its summary or fails.
-/

/-- Converter succeeds and records the block; solver echoes the recorded
block as the summary (so the returned summary identifies the block that was
used). -/
def envEcho : SolveEnv Unit Nat Nat :=
  { auction := ()
    convert_auction := fun _ n => Except.ok n
    commit := fun n => Except.ok n }

/-- Converter succeeds; the solver succeeds (with summary 7) on block 1 and
fails with "failed to solve auction" on any other block. -/
def envOkThenFail : SolveEnv Unit Nat Nat :=
  { auction := ()
    convert_auction := fun _ n => Except.ok n
    commit := fun n => if n = 1 then Except.ok 7 else Except.error "failed to solve auction" }

/-- Converter succeeds; the solver always fails. -/
def envAlwaysFail : SolveEnv Unit Nat Nat :=
  { auction := ()
    convert_auction := fun _ n => Except.ok n
    commit := fun _ => Except.error "failed to solve auction" }

/-- C1, counterexample: a run in which the first iteration succeeds (summary
7 for block 1), the stream then advances to block 2 and the second iteration
fails; at the deadline the loop returns the error of the failed second
iteration, not the earlier successful summary — a later failed iteration does
displace an earlier successful one. -/
theorem solve_loop_failure_displaces_success :
    (runLoop envOkThenFail ⟨some 1⟩
        [Ev.poll, Ev.send ⟨some 2⟩, Ev.poll, Ev.deadline]).resultsLog
      = [Except.ok 7, Except.error "failed to solve auction"] ∧
    (runLoop envOkThenFail ⟨some 1⟩
        [Ev.poll, Ev.send ⟨some 2⟩, Ev.poll, Ev.deadline]).returned
      = some (Except.error "failed to solve auction") := by
  constructor <;> rfl

/-- C1 (amended): when the run terminates and the most recent completed
iteration before the terminating event succeeded, the loop returns exactly
that most recent successful summary — it is never displaced by an older one.
(The original claim is false: a later failed iteration does displace an
earlier successful summary, see the counterexample.) -/
theorem solve_loop_returns_latest_success {A S σ : Type} (env : SolveEnv A S σ)
    (seed : Block) (evs : List Ev) (r : Except String σ) (s : σ)
    (hret : (runLoop env seed evs).returned = some r)
    (hlast : (runLoop env seed evs).resultsLog.getLast? = some (Except.ok s)) :
    r = Except.ok s := by
  obtain ⟨hcur, hretinv⟩ := loopInv_run env seed evs
  rw [hretinv r hret, hcur, List.getLastD_eq_getLast?, hlast]
  rfl

/-- Witness for the amended C1: a run whose single iteration succeeds with
summary 7 and which then hits the deadline returns `ok 7`. -/
theorem solve_loop_returns_latest_success_witness :
    (runLoop envOkThenFail ⟨some 1⟩ [Ev.poll, Ev.deadline]).returned
        = some (Except.ok 7) ∧
    (Except.ok 7 : Except String Nat) = Except.ok 7 :=
  ⟨by rfl,
   solve_loop_returns_latest_success envOkThenFail ⟨some 1⟩ [Ev.poll, Ev.deadline]
     (Except.ok 7) 7 (by rfl) (by rfl)⟩

/-- C2: a per-iteration error never aborts the loop — a poll that computes a
result (even a failed one) leaves the loop running and merely records the
result as the current one — and whenever the run terminates (deadline or
stream end) the returned value is the most recent per-iteration result,
success or failure, with the deadline sentinel standing in when no iteration
ever completed. -/
theorem solve_loop_errors_not_fatal {A S σ : Type} (env : SolveEnv A S σ)
    (seed : Block) (evs : List Ev) (r : Except String σ) (s : LoopState σ)
    (hret : (runLoop env seed evs).returned = some r)
    (hrun : s.returned = none) (havail : newValueAvailable s = true) :
    r = (runLoop env seed evs).resultsLog.getLastD deadlineSentinel ∧
    (stepLoop env s Ev.poll).returned = none ∧
    (stepLoop env s Ev.poll).current = compute_solution_for_block env s.latest := by
  obtain ⟨hcur, hretinv⟩ := loopInv_run env seed evs
  refine ⟨(hretinv r hret).trans hcur, ?_, ?_⟩ <;>
    simp [stepLoop, hrun, havail]

/-- Witness for C2: the always-failing solver's error becomes the result
returned at the deadline (it did not abort the loop), and a poll from a
running state computes rather than returns. -/
theorem solve_loop_errors_not_fatal_witness :
    (runLoop envAlwaysFail ⟨some 1⟩ [Ev.poll, Ev.deadline]).returned
        = some (Except.error "failed to solve auction") ∧
    (Except.error "failed to solve auction" : Except String Nat)
        = (runLoop envAlwaysFail ⟨some 1⟩ [Ev.poll, Ev.deadline]).resultsLog.getLastD
            deadlineSentinel ∧
    (stepLoop envAlwaysFail (initState ⟨some 1⟩) Ev.poll).returned = none := by
  have h := solve_loop_errors_not_fatal envAlwaysFail ⟨some 1⟩ [Ev.poll, Ev.deadline]
    (Except.error "failed to solve auction") (initState ⟨some 1⟩)
    (by rfl) (by rfl) (by rfl)
  exact ⟨by rfl, h.1, h.2.1⟩

/-- C3: when the run terminates without any converter+commit computation
having completed (empty results log — in particular when the deadline fires
first), the loop returns the sentinel error
"reached the deadline without a result". -/
theorem solve_loop_deadline_without_result {A S σ : Type} (env : SolveEnv A S σ)
    (seed : Block) (evs : List Ev) (r : Except String σ)
    (hret : (runLoop env seed evs).returned = some r)
    (hnone : (runLoop env seed evs).resultsLog = []) :
    r = Except.error "reached the deadline without a result" := by
  obtain ⟨hcur, hretinv⟩ := loopInv_run env seed evs
  rw [hretinv r hret, hcur, hnone]
  rfl

/-- Witness for C3: the deadline firing before any poll returns the sentinel. -/
theorem solve_loop_deadline_without_result_witness :
    (runLoop envEcho ⟨some 1⟩ [Ev.deadline]).returned
        = some (Except.error "reached the deadline without a result") ∧
    (Except.error "reached the deadline without a result" : Except String Nat)
        = Except.error "reached the deadline without a result" :=
  ⟨by rfl,
   solve_loop_deadline_without_result envEcho ⟨some 1⟩ [Ev.deadline] _ (by rfl) (by rfl)⟩

/-- C4: every iteration, the first one included, consumes the most recent
block published on the stream at the moment the iteration begins (the general
part: a poll from a running state with a fresh value consumes exactly
`(sentBlocks evs).getLastD seed`, skipping all intermediate blocks), and in
the concrete seeded scenario — stream holds Block 1 then Block 2 before the
loop starts — the first and only converter call receives block 2, the solver
sees the auction converted from block 2 and the loop returns its summary. -/
theorem solve_loop_consumes_latest_block {A S σ : Type} (env : SolveEnv A S σ)
    (seed : Block) (evs : List Ev)
    (hrun : (runLoop env seed evs).returned = none)
    (havail : newValueAvailable (runLoop env seed evs) = true) :
    (runLoop env seed (evs ++ [Ev.poll])).consumed
        = (runLoop env seed evs).consumed ++ [(sentBlocks evs).getLastD seed] ∧
    (runLoop envEcho ⟨some 1⟩ [Ev.send ⟨some 2⟩, Ev.poll, Ev.deadline]).consumed
        = [⟨some 2⟩] ∧
    (runLoop envEcho ⟨some 1⟩ [Ev.send ⟨some 2⟩, Ev.poll, Ev.deadline]).returned
        = some (Except.ok 2) := by
  refine ⟨?_, by rfl, by rfl⟩
  have hfold : runLoop env seed (evs ++ [Ev.poll])
      = stepLoop env (runLoop env seed evs) Ev.poll := by
    simp [runLoop, List.foldl_append]
  have hr : ¬(runLoop env seed evs).returned.isSome := by simp [hrun]
  rw [hfold, ← latest_eq_lastSent env seed evs hrun]
  simp [stepLoop, hr, havail]

/-- Witness for C4: before the first poll the stream advanced from the seeded
block 1 to block 2; the poll consumes block 2. -/
theorem solve_loop_consumes_latest_block_witness :
    (runLoop envEcho ⟨some 1⟩ ([Ev.send ⟨some 2⟩] ++ [Ev.poll])).consumed
        = (runLoop envEcho ⟨some 1⟩ [Ev.send ⟨some 2⟩]).consumed
            ++ [(sentBlocks [Ev.send ⟨some 2⟩]).getLastD ⟨some 1⟩] ∧
    (sentBlocks [Ev.send ⟨some 2⟩]).getLastD ⟨some 1⟩ = ⟨some 2⟩ :=
  ⟨(solve_loop_consumes_latest_block envEcho ⟨some 1⟩ [Ev.send ⟨some 2⟩]
      (by rfl) (by rfl)).1,
   by rfl⟩

/-!
Part 2: `Driver::on_auction_won` (`crates/driver/src/driver.rs`).

The driver reveals the settlement behind the winning summary, estimates the
gas price, simulates the revealed settlement via the settlement rater
(`validate_settlement`) and finally submits it.  We embed the collaborators
as an environment of functions and additionally log which collaborators were
invoked, so that "returns without performing simulation or submission" is a
statement about the log.
-/

/-- `api::execute::ExecuteError`.  Modelled from the spec: the enum itself is
declared in `crates/driver/src/api/execute.rs`, which is not among the
sources; the spec lists "solver declined (`ExecutionRejected` — distinct
kind, not a failure)" next to the generic failures wrapped from anyhow
errors. -/
inductive ExecuteError where
  | executionRejected
  | other (msg : String)
deriving DecidableEq, Repr

/-- The collaborator invocations `on_auction_won` can perform, in the order
they are logged. -/
inductive DriverCall where
  | reveal
  | estimateGasPrice
  | simulate
  | submit
deriving DecidableEq, Repr

/-- `solver::settlement_rater::SimulationDetails`: the solver, the settlement
and either a gas estimate or the simulation error. -/
structure SimulationDetails (Sol Settle : Type) where
  solver : Sol
  settlement : Settle
  gas_estimate : Except String Nat

/-- Collaborators of `on_auction_won`: the commit-reveal solver's `reveal`,
the solver wrapped for rating (`CommitRevealSolverAdapter`), the gas-price
estimator, the settlement rater and the submission pipeline. -/
structure WonEnv (Sum Settle Sol G H : Type) where
  reveal : Sum → Except String (Option Settle)
  fake_solver : Sol
  estimate_gas_price : Except String G
  simulate_settlements :
    List (Sol × Settle) → G → Except String (List (SimulationDetails Sol Settle))
  submit : Sol → Settle → Nat → Except String H

/-- `Driver::validate_settlement`: estimate the gas price, simulate the
single settlement, `pop` the last simulation detail ("simulation returned no
results" when empty) and require a successful gas estimate ("simulation
failed" context otherwise). -/
def validate_settlement {Sum Settle Sol G H : Type} (env : WonEnv Sum Settle Sol G H)
    (settlement : Settle) :
    Except String (SimulationDetails Sol Settle) × List DriverCall :=
  match env.estimate_gas_price with
  | Except.error e => (Except.error e, [DriverCall.estimateGasPrice])
  | Except.ok gp =>
    match env.simulate_settlements [(env.fake_solver, settlement)] gp with
    | Except.error e => (Except.error e, [DriverCall.estimateGasPrice, DriverCall.simulate])
    | Except.ok lst =>
      match lst.getLast? with
      | none =>
          (Except.error "simulation returned no results",
           [DriverCall.estimateGasPrice, DriverCall.simulate])
      | some details =>
        match details.gas_estimate with
        | Except.error e =>
            (Except.error ("simulation failed: " ++ e),
             [DriverCall.estimateGasPrice, DriverCall.simulate])
        | Except.ok _ =>
            (Except.ok details, [DriverCall.estimateGasPrice, DriverCall.simulate])

/-- `Driver::submit_settlement`: submit with the gas estimate checked during
validation (the `Except.error` arm is the `expect` that validation makes
unreachable). -/
def driver_submit_settlement {Sum Settle Sol G H : Type} (env : WonEnv Sum Settle Sol G H)
    (details : SimulationDetails Sol Settle) : Except String H × List DriverCall :=
  match details.gas_estimate with
  | Except.error _ =>
      (Except.error "checked simulation gas_estimate during validation", [])
  | Except.ok gas =>
      (env.submit details.solver details.settlement gas, [DriverCall.submit])

/-- `Driver::on_auction_won`: reveal; on `None` return `ExecutionRejected`;
otherwise validate (gas estimate + simulation) and submit, short-circuiting
on errors. -/
def on_auction_won {Sum Settle Sol G H : Type} (env : WonEnv Sum Settle Sol G H)
    (summary : Sum) : Except ExecuteError H × List DriverCall :=
  match env.reveal summary with
  | Except.error e => (Except.error (ExecuteError.other e), [DriverCall.reveal])
  | Except.ok none => (Except.error ExecuteError.executionRejected, [DriverCall.reveal])
  | Except.ok (some settlement) =>
    match validate_settlement env settlement with
    | (Except.error e, calls) =>
        (Except.error (ExecuteError.other e), DriverCall.reveal :: calls)
    | (Except.ok details, calls) =>
      match driver_submit_settlement env details with
      | (Except.error e, calls2) =>
          (Except.error (ExecuteError.other e), DriverCall.reveal :: (calls ++ calls2))
      | (Except.ok h, calls2) =>
          (Except.ok h, DriverCall.reveal :: (calls ++ calls2))

/-- C5: when `reveal` returns `None` the driver returns
`ExecuteError::ExecutionRejected` having invoked only `reveal` — neither the
simulation nor the submission collaborator runs — and `ExecutionRejected` is
a distinct outcome kind, different from every wrapped generic error. -/
theorem on_auction_won_reveal_none_rejects {Sum Settle Sol G H : Type}
    (env : WonEnv Sum Settle Sol G H) (summary : Sum)
    (h : env.reveal summary = Except.ok none) :
    on_auction_won env summary
        = (Except.error ExecuteError.executionRejected, [DriverCall.reveal]) ∧
    DriverCall.simulate ∉ (on_auction_won env summary).2 ∧
    DriverCall.submit ∉ (on_auction_won env summary).2 ∧
    ∀ e, ExecuteError.executionRejected ≠ ExecuteError.other e := by
  have hmain : on_auction_won env summary
      = (Except.error ExecuteError.executionRejected, [DriverCall.reveal]) := by
    rw [on_auction_won, h]
  refine ⟨hmain, ?_, ?_, ?_⟩
  · rw [hmain]; simp
  · rw [hmain]; simp
  · intro e he
    cases he

/-- A solver that declines every settlement, with trivial collaborators for
the remaining capabilities. -/
def envDeclines : WonEnv Unit Unit Unit Unit Nat :=
  { reveal := fun _ => Except.ok none
    fake_solver := ()
    estimate_gas_price := Except.ok ()
    simulate_settlements := fun l _ =>
      Except.ok (l.map fun p => ⟨p.1, p.2, Except.ok 21000⟩)
    submit := fun _ _ _ => Except.ok 0xdeadbeef }

/-- Witness for C5: the declining solver yields `ExecutionRejected` and a
call log containing only `reveal`. -/
theorem on_auction_won_reveal_none_rejects_witness :
    on_auction_won envDeclines ()
        = (Except.error ExecuteError.executionRejected, [DriverCall.reveal]) ∧
    ExecuteError.executionRejected ≠ ExecuteError.other "simulation failed" :=
  ⟨(on_auction_won_reveal_none_rejects envDeclines () (by rfl)).1,
   (on_auction_won_reveal_none_rejects envDeclines () (by rfl)).2.2.2 "simulation failed"⟩

/-!
Part 3: the order materialiser `full_order_into_model_order`
(`crates/autopilot/src/database/auction.rs`).

Stored arbitrary-precision decimals (`BigDecimal`) are modelled as rationals;
`big_decimal_to_u256` and `Signature::from_bytes` live in crates that are not
among the sources and are modelled from the spec (doc comments below).
Unsigned 256-bit amounts are `Nat` (bounds checked at conversion), `H160`
addresses and order UIDs are the numeric value of their bytes.
-/

/-- `database::orders::OrderKind`. -/
inductive DbOrderKind where
  | buy
  | sell
deriving DecidableEq, Repr

/-- `database::orders::SellTokenSource`. -/
inductive DbSellTokenSource where
  | erc20
  | internal
  | external
deriving DecidableEq, Repr

/-- `database::orders::BuyTokenDestination`. -/
inductive DbBuyTokenDestination where
  | erc20
  | internal
deriving DecidableEq, Repr

/-- `database::orders::SigningScheme`. -/
inductive DbSigningScheme where
  | eip712
  | ethSign
  | eip1271
  | preSign
deriving DecidableEq, Repr

/-- `model::order::OrderKind`. -/
inductive OrderKind where
  | buy
  | sell
deriving DecidableEq, Repr

/-- `model::order::SellTokenSource`. -/
inductive SellTokenSource where
  | erc20
  | internal
  | external
deriving DecidableEq, Repr

/-- `model::order::BuyTokenDestination`. -/
inductive BuyTokenDestination where
  | erc20
  | internal
deriving DecidableEq, Repr

/-- `model::signature::SigningScheme`. -/
inductive SigningScheme where
  | eip712
  | ethSign
  | eip1271
  | preSign
deriving DecidableEq, Repr

/-- `order_kind_from`. -/
def order_kind_from : DbOrderKind → OrderKind
  | DbOrderKind.buy => OrderKind.buy
  | DbOrderKind.sell => OrderKind.sell

/-- `sell_token_source_from`. -/
def sell_token_source_from : DbSellTokenSource → SellTokenSource
  | DbSellTokenSource.erc20 => SellTokenSource.erc20
  | DbSellTokenSource.internal => SellTokenSource.internal
  | DbSellTokenSource.external => SellTokenSource.external

/-- `buy_token_destination_from`. -/
def buy_token_destination_from : DbBuyTokenDestination → BuyTokenDestination
  | DbBuyTokenDestination.erc20 => BuyTokenDestination.erc20
  | DbBuyTokenDestination.internal => BuyTokenDestination.internal

/-- `signing_scheme_from`. -/
def signing_scheme_from : DbSigningScheme → SigningScheme
  | DbSigningScheme.eip712 => SigningScheme.eip712
  | DbSigningScheme.ethSign => SigningScheme.ethSign
  | DbSigningScheme.eip1271 => SigningScheme.eip1271
  | DbSigningScheme.preSign => SigningScheme.preSign

/-- `model::signature::Signature`: a signing scheme together with the raw
signature bytes. -/
structure Signature where
  scheme : SigningScheme
  bytes : List Nat
deriving DecidableEq, Repr

/-- Modelled from the spec: `Signature::from_bytes` lives in
`crates/model/src/signature.rs`, which is not among the sources.  The spec
describes an order's signature as a "signing scheme" together with "raw
signature bytes" and records no failure condition for reading them back from
storage, so the modelled reader always succeeds. -/
def Signature.from_bytes (scheme : SigningScheme) (bytes : List Nat) :
    Except String Signature :=
  Except.ok { scheme := scheme, bytes := bytes }

/-- A rational is a `U256` value when it is a non-negative integer below
`2^256`. -/
def fitsU256 (q : ℚ) : Prop := q.den = 1 ∧ 0 ≤ q.num ∧ q.num < 2 ^ 256

instance (q : ℚ) : Decidable (fitsU256 q) :=
  inferInstanceAs (Decidable (q.den = 1 ∧ 0 ≤ q.num ∧ q.num < 2 ^ 256))

/-- Modelled from the spec: `big_decimal_to_u256` lives in the
`number_conversions` crate, which is not among the sources.  The spec says
materialisation "must fail cleanly when any arbitrary-precision decimal does
not fit" into an unsigned 256-bit integer, so the conversion yields the value
exactly when it is a non-negative integer below `2^256`. -/
def big_decimal_to_u256 (q : ℚ) : Option Nat :=
  if fitsU256 q then some q.num.toNat else none

/-- `i64::try_into::<u32>` applied to the stored `valid_to`. -/
def valid_to_u32 (v : Int) : Except String Nat :=
  if 0 ≤ v ∧ v < 2 ^ 32 then Except.ok v.toNat else Except.error "valid_to is not u32"

/-- `database::orders::FullOrder`: the columns read by
`full_order_into_model_order`. -/
structure FullOrder where
  uid : Nat
  owner : Nat
  creation_timestamp : Int
  sell_token : Nat
  buy_token : Nat
  receiver : Option Nat
  sell_amount : ℚ
  buy_amount : ℚ
  valid_to : Int
  app_data : Nat
  fee_amount : ℚ
  full_fee_amount : ℚ
  kind : DbOrderKind
  partially_fillable : Bool
  signature : List Nat
  sum_sell : ℚ
  sum_buy : ℚ
  sum_fee : ℚ
  is_liquidity_order : Bool
  signing_scheme : DbSigningScheme
  sell_token_balance : DbSellTokenSource
  buy_token_balance : DbBuyTokenDestination

/-- `model::auction::OrderMetadata` (the fields set by the materialiser). -/
structure OrderMetadata where
  creation_date : Int
  owner : Nat
  uid : Nat
  executed_amount : Nat
  full_fee_amount : Nat
  is_liquidity_order : Bool
deriving DecidableEq, Repr

/-- `model::order::OrderData`. -/
structure OrderData where
  sell_token : Nat
  buy_token : Nat
  receiver : Option Nat
  sell_amount : Nat
  buy_amount : Nat
  valid_to : Nat
  app_data : Nat
  fee_amount : Nat
  kind : OrderKind
  partially_fillable : Bool
  sell_token_balance : SellTokenSource
  buy_token_balance : BuyTokenDestination
deriving DecidableEq, Repr

/-- `model::auction::Order`. -/
structure Order where
  metadata : OrderMetadata
  data : OrderData
  signature : Signature
deriving DecidableEq, Repr

/-- Turn an optional conversion result into the materialiser's typed
per-field error. -/
def ofOption {α : Type} (msg : String) : Option α → Except String α
  | none => Except.error msg
  | some a => Except.ok a

/-- The decimal whose conversion becomes `executed_amount`: `sum_buy` for Buy
orders, `sum_sell - sum_fee` for Sell orders. -/
def executedDecimal (o : FullOrder) : ℚ :=
  match o.kind with
  | DbOrderKind.buy => o.sum_buy
  | DbOrderKind.sell => o.sum_sell - o.sum_fee

/-- `full_order_into_model_order`, with the conversions performed in the
order the Rust struct literals evaluate them. -/
def full_order_into_model_order (o : FullOrder) : Except String Order := do
  let executed ← ofOption "executed_amount does not fit into u256"
      (big_decimal_to_u256 (executedDecimal o))
  let full_fee ← ofOption "full_fee_amount is not U256"
      (big_decimal_to_u256 o.full_fee_amount)
  let sell ← ofOption "sell_amount is not U256" (big_decimal_to_u256 o.sell_amount)
  let buy ← ofOption "buy_amount is not U256" (big_decimal_to_u256 o.buy_amount)
  let vt ← valid_to_u32 o.valid_to
  let fee ← ofOption "fee_amount is not U256" (big_decimal_to_u256 o.fee_amount)
  let sig ← Signature.from_bytes (signing_scheme_from o.signing_scheme) o.signature
  Except.ok
    { metadata :=
        { creation_date := o.creation_timestamp
          owner := o.owner
          uid := o.uid
          executed_amount := executed
          full_fee_amount := full_fee
          is_liquidity_order := o.is_liquidity_order }
      data :=
        { sell_token := o.sell_token
          buy_token := o.buy_token
          receiver := o.receiver
          sell_amount := sell
          buy_amount := buy
          valid_to := vt
          app_data := o.app_data
          fee_amount := fee
          kind := order_kind_from o.kind
          partially_fillable := o.partially_fillable
          sell_token_balance := sell_token_source_from o.sell_token_balance
          buy_token_balance := buy_token_destination_from o.buy_token_balance }
      signature := sig }

lemma big_decimal_to_u256_some {q : ℚ} {n : Nat} (h : big_decimal_to_u256 q = some n) :
    (n : ℚ) = q ∧ 0 ≤ q := by
  unfold big_decimal_to_u256 at h
  split at h
  · next hfit =>
      obtain ⟨hden, hnum, _⟩ := hfit
      injection h with h
      subst h
      constructor
      · have hq : ((q.num : ℚ)) = q := by
          conv_rhs => rw [← Rat.num_div_den q]
          rw [hden]
          push_cast
          ring
        rw [← hq]
        exact_mod_cast Int.toNat_of_nonneg hnum
      · rw [← Rat.num_nonneg]
        exact hnum
  · cases h

lemma except_bind_ok {α β : Type} {x : Except String α} {f : α → Except String β} {b : β} :
    (x >>= f) = Except.ok b ↔ ∃ a, x = Except.ok a ∧ f a = Except.ok b := by
  cases x <;> simp [Bind.bind, Except.bind]

lemma ofOption_eq_ok {α : Type} {msg : String} {x : Option α} {a : α} :
    ofOption msg x = Except.ok a ↔ x = some a := by
  cases x <;> simp [ofOption]

/-- C8: whenever a stored full-order row materialises successfully, the
resulting order's `executed_amount` is `sum_buy` for Buy orders and
`sum_sell - sum_fee` for Sell orders, the latter difference being
non-negative. -/
theorem order_executed_amount_formula (o : FullOrder) (ord : Order)
    (h : full_order_into_model_order o = Except.ok ord) :
    (o.kind = DbOrderKind.buy → (ord.metadata.executed_amount : ℚ) = o.sum_buy) ∧
    (o.kind = DbOrderKind.sell →
      (ord.metadata.executed_amount : ℚ) = o.sum_sell - o.sum_fee ∧
      0 ≤ o.sum_sell - o.sum_fee) := by
  simp only [full_order_into_model_order, except_bind_ok, ofOption_eq_ok,
    Signature.from_bytes, Except.ok.injEq] at h
  obtain ⟨ex, hex, ff, -, se, -, bu, -, vt, -, fe, -, sig, hsig, hord⟩ := h
  have hfield : ord.metadata.executed_amount = ex := by
    rw [← hord]
  have hval := big_decimal_to_u256_some hex
  constructor
  · intro hk
    rw [hfield]
    have : executedDecimal o = o.sum_buy := by rw [executedDecimal, hk]
    rw [← this]
    exact hval.1
  · intro hk
    rw [hfield]
    have : executedDecimal o = o.sum_sell - o.sum_fee := by rw [executedDecimal, hk]
    rw [← this]
    exact ⟨hval.1, hval.2⟩

/-- A Sell order row whose stored sums are well-formed, used by witnesses. -/
def rowSellOk : FullOrder :=
  { uid := 1
    owner := 2
    creation_timestamp := 3
    sell_token := 4
    buy_token := 5
    receiver := none
    sell_amount := 100
    buy_amount := 200
    valid_to := 1000
    app_data := 6
    fee_amount := 7
    full_fee_amount := 8
    kind := DbOrderKind.sell
    partially_fillable := false
    signature := [1, 2, 3]
    sum_sell := 60
    sum_buy := 0
    sum_fee := 10
    is_liquidity_order := false
    signing_scheme := DbSigningScheme.eip712
    sell_token_balance := DbSellTokenSource.erc20
    buy_token_balance := DbBuyTokenDestination.erc20 }

/-- The order `rowSellOk` materialises into. -/
def orderSellOk : Order :=
  { metadata :=
      { creation_date := 3
        owner := 2
        uid := 1
        executed_amount := 50
        full_fee_amount := 8
        is_liquidity_order := false }
    data :=
      { sell_token := 4
        buy_token := 5
        receiver := none
        sell_amount := 100
        buy_amount := 200
        valid_to := 1000
        app_data := 6
        fee_amount := 7
        kind := OrderKind.sell
        partially_fillable := false
        sell_token_balance := SellTokenSource.erc20
        buy_token_balance := BuyTokenDestination.erc20 }
    signature := { scheme := SigningScheme.eip712, bytes := [1, 2, 3] } }

lemma rowSellOk_materialises :
    full_order_into_model_order rowSellOk = Except.ok orderSellOk := by
  have h1 : big_decimal_to_u256 ((60 : ℚ) - 10) = some 50 := by
    norm_num [big_decimal_to_u256, fitsU256]
    decide
  have h2 : big_decimal_to_u256 (8 : ℚ) = some 8 := by
    norm_num [big_decimal_to_u256, fitsU256]
    decide
  have h3 : big_decimal_to_u256 (100 : ℚ) = some 100 := by
    norm_num [big_decimal_to_u256, fitsU256]
    decide
  have h4 : big_decimal_to_u256 (200 : ℚ) = some 200 := by
    norm_num [big_decimal_to_u256, fitsU256]
    decide
  have h5 : big_decimal_to_u256 (7 : ℚ) = some 7 := by
    norm_num [big_decimal_to_u256, fitsU256]
    decide
  have h6 : valid_to_u32 1000 = Except.ok 1000 := by
    norm_num [valid_to_u32]
    decide
  simp [full_order_into_model_order, executedDecimal, h1, h2, h3, h4, h5, h6, ofOption,
    Signature.from_bytes, Bind.bind, Except.bind, rowSellOk, orderSellOk,
    order_kind_from, sell_token_source_from, buy_token_destination_from,
    signing_scheme_from]

/-- Witness for C8: the concrete Sell row materialises with
`executed_amount = 60 - 10 = 50`, a non-negative value. -/
theorem order_executed_amount_formula_witness :
    ((orderSellOk.metadata.executed_amount : ℚ)
        = rowSellOk.sum_sell - rowSellOk.sum_fee ∧
      0 ≤ rowSellOk.sum_sell - rowSellOk.sum_fee) ∧
    orderSellOk.metadata.executed_amount = 50 :=
  ⟨(order_executed_amount_formula rowSellOk orderSellOk rowSellOk_materialises).2 rfl,
   rfl⟩

/-- C9: materialisation of a stored row fails — with a per-field typed error
message, never a silently substituted default — exactly when one of the
arbitrary-precision decimal amounts is not a `U256` value or the stored
`valid_to` does not fit into 32 bits. -/
theorem order_materialisation_error_iff (o : FullOrder) :
    ((∃ e, full_order_into_model_order o = Except.error e) ↔
      (¬ fitsU256 (executedDecimal o) ∨ ¬ fitsU256 o.full_fee_amount ∨
       ¬ fitsU256 o.sell_amount ∨ ¬ fitsU256 o.buy_amount ∨
       ¬ fitsU256 o.fee_amount ∨ ¬ (0 ≤ o.valid_to ∧ o.valid_to < 2 ^ 32))) ∧
    (∀ e, full_order_into_model_order o = Except.error e →
      e = "executed_amount does not fit into u256" ∨ e = "full_fee_amount is not U256" ∨
      e = "sell_amount is not U256" ∨ e = "buy_amount is not U256" ∨
      e = "valid_to is not u32" ∨ e = "fee_amount is not U256") := by
  by_cases h1 : fitsU256 (executedDecimal o) <;>
  by_cases h2 : fitsU256 o.full_fee_amount <;>
  by_cases h3 : fitsU256 o.sell_amount <;>
  by_cases h4 : fitsU256 o.buy_amount <;>
  by_cases h5 : fitsU256 o.fee_amount <;>
  by_cases h6 : (0 ≤ o.valid_to ∧ o.valid_to < 4294967296) <;>
  simp [full_order_into_model_order, big_decimal_to_u256, valid_to_u32, ofOption,
    Signature.from_bytes, Bind.bind, Except.bind, h1, h2, h3, h4, h5, h6]

/-- A Sell order row whose `sum_fee` exceeds `sum_sell`: the executed amount
would be negative, so materialisation must fail. -/
def rowSellNegative : FullOrder :=
  { rowSellOk with sum_sell := 5, sum_fee := 10 }

/-- Witness for C9: the row with negative `sum_sell - sum_fee` fails to
materialise (its executed amount is not a U256 value), and the failure
carries one of the per-field typed messages. -/
theorem order_materialisation_error_iff_witness :
    (∃ e, full_order_into_model_order rowSellNegative = Except.error e) ∧
    ("executed_amount does not fit into u256" = "executed_amount does not fit into u256" ∨
     "executed_amount does not fit into u256" = "full_fee_amount is not U256" ∨
     "executed_amount does not fit into u256" = "sell_amount is not U256" ∨
     "executed_amount does not fit into u256" = "buy_amount is not U256" ∨
     "executed_amount does not fit into u256" = "valid_to is not u32" ∨
     "executed_amount does not fit into u256" = "fee_amount is not U256") := by
  have hexec : ¬ fitsU256 (executedDecimal rowSellNegative) := by
    norm_num [executedDecimal, rowSellNegative, rowSellOk, fitsU256]
  have herr : full_order_into_model_order rowSellNegative
      = Except.error "executed_amount does not fit into u256" := by
    simp [full_order_into_model_order, big_decimal_to_u256, hexec, ofOption,
      Bind.bind, Except.bind]
  refine ⟨?_, ?_⟩
  · exact (order_materialisation_error_iff rowSellNegative).1.mpr (Or.inl hexec)
  · exact (order_materialisation_error_iff rowSellNegative).2 _ herr

/-!
Part 4: JSON serialisation of `SolverCompetition`
(`crates/model/src/solver_competition.rs`) and the competition store
(`crates/orderbook/src/database/solver_competition.rs`).

The serde-derived wire format is embedded as explicit serialise/deserialise
functions over a JSON value type: camelCase keys in struct declaration
order, `U256` amounts as decimal strings (`u256_decimal::DecimalU256`),
byte strings as `0x`-prefixed hex (`bytes_hex`), `H160`/`H256`/`OrderUid`
as fixed-width `0x`-hex, `BTreeMap` price maps as objects whose keys appear
in ascending key order.  Finite `f64` values are modelled by their rational
value (serde_json round-trips finite doubles exactly; non-finite doubles
are outside the model).
-/

/-- Value of a lowercase hexadecimal digit character, computed from the
character code. -/
def hexDigitVal (c : Char) : Option Nat :=
  if '0' ≤ c ∧ c ≤ '9' then some (c.toNat - '0'.toNat)
  else if 'a' ≤ c ∧ c ≤ 'f' then some (c.toNat - 'a'.toNat + 10)
  else none

/-- Value of a decimal digit character, computed from the character code. -/
def decDigitVal (c : Char) : Option Nat :=
  if '0' ≤ c ∧ c ≤ '9' then some (c.toNat - '0'.toNat) else none

/-- Fixed-width lowercase hex rendering, most significant digit first. -/
def hexFixed : Nat → Nat → List Char
  | 0, _ => []
  | w + 1, n => hexFixed w (n / 16) ++ [Nat.digitChar (n % 16)]

/-- Parse a little-endian (least significant digit first) hex digit list. -/
def parseHexLE : List Char → Option Nat
  | [] => some 0
  | c :: rest =>
    match hexDigitVal c, parseHexLE rest with
    | some d, some v => some (d + 16 * v)
    | _, _ => none

/-- Parse a little-endian decimal digit list. -/
def parseDecLE : List Char → Option Nat
  | [] => some 0
  | c :: rest =>
    match decDigitVal c, parseDecLE rest with
    | some d, some v => some (d + 10 * v)
    | _, _ => none

/-- Parse a most-significant-first decimal string (at least one digit). -/
def parseDec (s : List Char) : Option Nat :=
  match s with
  | [] => none
  | _ => parseDecLE s.reverse

/-- Decimal rendering of a `U256` value, as `U256::to_string` produces it:
no leading zeros, and `"0"` for zero. -/
def decChars (n : Nat) : List Char :=
  if n = 0 then ['0'] else ((Nat.digits 10 n).map Nat.digitChar).reverse

/-- Parse a `0x`-prefixed hex byte string two digits at a time. -/
def parseHexBytes : List Char → Option (List Nat)
  | [] => some []
  | [_] => none
  | c1 :: c2 :: rest =>
    match hexDigitVal c1, hexDigitVal c2, parseHexBytes rest with
    | some d1, some d2, some bs => some ((d1 * 16 + d2) :: bs)
    | _, _, _ => none

lemma hexDigitVal_digitChar : ∀ d, d < 16 → hexDigitVal (Nat.digitChar d) = some d := by
  decide

lemma decDigitVal_digitChar : ∀ d, d < 10 → decDigitVal (Nat.digitChar d) = some d := by
  decide

lemma hexFixed_length (w n : Nat) : (hexFixed w n).length = w := by
  induction w generalizing n with
  | zero => rfl
  | succ w ih => simp [hexFixed, ih]

lemma parseHexLE_hexFixed (w : Nat) : ∀ n, n < 16 ^ w →
    parseHexLE (hexFixed w n).reverse = some n := by
  induction w with
  | zero =>
      intro n hn
      interval_cases n
      rfl
  | succ w ih =>
      intro n hn
      have hd : n / 16 < 16 ^ w := by
        rw [Nat.div_lt_iff_lt_mul (by norm_num)]
        calc n < 16 ^ (w + 1) := hn
        _ = 16 ^ w * 16 := by ring
      have hm : n % 16 < 16 := Nat.mod_lt _ (by norm_num)
      rw [hexFixed, List.reverse_append, List.reverse_singleton, List.singleton_append,
        parseHexLE, hexDigitVal_digitChar _ hm, ih _ hd]
      simp [Nat.mod_add_div]

lemma parseDecLE_map_digits : ∀ L : List Nat, (∀ d ∈ L, d < 10) →
    parseDecLE (L.map Nat.digitChar) = some (Nat.ofDigits 10 L) := by
  intro L
  induction L with
  | nil => intro _; rfl
  | cons d L ih =>
      intro h
      have hd : d < 10 := h d (by simp)
      rw [List.map_cons, parseDecLE, decDigitVal_digitChar _ hd,
        ih (fun x hx => h x (List.mem_cons_of_mem _ hx))]
      simp [Nat.ofDigits_cons]

lemma parseDec_decChars (n : Nat) : parseDec (decChars n) = some n := by
  by_cases h : n = 0
  · subst h
    rfl
  · have hne : Nat.digits 10 n ≠ [] := Nat.digits_ne_nil_iff_ne_zero.mpr h
    have hlt : ∀ d ∈ Nat.digits 10 n, d < 10 := fun d hd =>
      Nat.digits_lt_base (by norm_num) hd
    have hmapne : ((Nat.digits 10 n).map Nat.digitChar).reverse ≠ [] := by
      simp [hne]
    rw [decChars, if_neg h, parseDec.eq_def]
    split
    · next heq => exact absurd heq hmapne
    · rw [List.reverse_reverse, parseDecLE_map_digits _ hlt, Nat.ofDigits_digits]

lemma parseHexBytes_roundtrip : ∀ bs : List Nat, (∀ b ∈ bs, b < 256) →
    parseHexBytes ((bs.map (hexFixed 2)).flatten) = some bs := by
  intro bs
  induction bs with
  | nil => intro _; rfl
  | cons b bs ih =>
      intro h
      have hb : b < 256 := h b (by simp)
      have hdiv : b / 16 < 16 := by omega
      have hmod : b % 16 < 16 := Nat.mod_lt _ (by norm_num)
      have hdm : b / 16 % 16 = b / 16 := Nat.mod_eq_of_lt hdiv
      have hfix : hexFixed 2 b = [Nat.digitChar (b / 16 % 16), Nat.digitChar (b % 16)] := by
        simp [hexFixed]
      rw [List.map_cons, List.flatten_cons, hfix, List.cons_append, List.cons_append,
        List.nil_append, parseHexBytes, hdm, hexDigitVal_digitChar _ hdiv,
        hexDigitVal_digitChar _ hmod, ih (fun x hx => h x (List.mem_cons_of_mem _ hx))]
      have hval : b / 16 * 16 + b % 16 = b := by omega
      simp [hval]

/-- Boolean lexicographic order on character lists (the order of JSON object
keys rendered as strings). -/
def lexLt : List Char → List Char → Bool
  | [], [] => false
  | [], _ :: _ => true
  | _ :: _, [] => false
  | a :: as, b :: bs => decide (a < b) || (a == b && lexLt as bs)

lemma digitChar_strictMono : ∀ d, d < 16 → ∀ e, e < 16 → d < e →
    Nat.digitChar d < Nat.digitChar e := by
  decide

lemma lexLt_append_left : ∀ (xs ys : List Char), xs.length = ys.length →
    lexLt xs ys = true → ∀ (us vs : List Char), lexLt (xs ++ us) (ys ++ vs) = true := by
  intro xs
  induction xs with
  | nil =>
      intro ys hlen
      cases ys with
      | nil => intro h; cases h
      | cons _ _ => intro h; cases hlen
  | cons a as ih =>
      intro ys hlen hlt us vs
      cases ys with
      | nil => cases hlen
      | cons b bs =>
          simp only [lexLt, Bool.or_eq_true, Bool.and_eq_true, decide_eq_true_eq,
            beq_iff_eq] at hlt
          rcases hlt with hab | ⟨hab, hrest⟩
          · simp [lexLt, hab]
          · subst hab
            have := ih bs (by simpa using hlen) hrest us vs
            simp [lexLt, this]

lemma lexLt_append_same : ∀ (xs : List Char) (us vs : List Char),
    lexLt us vs = true → lexLt (xs ++ us) (xs ++ vs) = true := by
  intro xs
  induction xs with
  | nil => intro us vs h; simpa using h
  | cons a as ih =>
      intro us vs h
      simp [lexLt, ih us vs h]

lemma lexLt_cons_same (c : Char) (as bs : List Char) :
    lexLt (c :: as) (c :: bs) = lexLt as bs := by
  simp [lexLt]

lemma hexFixed_lexLt (w : Nat) : ∀ a b, a < b → b < 16 ^ w →
    lexLt (hexFixed w a) (hexFixed w b) = true := by
  induction w with
  | zero =>
      intro a b hab hb
      omega
  | succ w ih =>
      intro a b hab hb
      have hbd : b / 16 < 16 ^ w := by
        rw [Nat.div_lt_iff_lt_mul (by norm_num)]
        calc b < 16 ^ (w + 1) := hb
        _ = 16 ^ w * 16 := by ring
      have hdiv : a / 16 ≤ b / 16 := Nat.div_le_div_right (Nat.le_of_lt hab)
      rcases Nat.lt_or_ge (a / 16) (b / 16) with hlt | hge
      · rw [hexFixed, hexFixed]
        exact lexLt_append_left _ _ (by rw [hexFixed_length, hexFixed_length])
          (ih _ _ hlt hbd) _ _
      · have heq : a / 16 = b / 16 := Nat.le_antisymm hdiv hge
        have hmod : a % 16 < b % 16 := by
          have ha := Nat.div_add_mod a 16
          have hbe := Nat.div_add_mod b 16
          omega
        rw [hexFixed, hexFixed, heq]
        apply lexLt_append_same
        have hm16 : a % 16 < 16 := Nat.mod_lt _ (by norm_num)
        have hm16b : b % 16 < 16 := Nat.mod_lt _ (by norm_num)
        simp [lexLt, digitChar_strictMono _ hm16 _ hm16b hmod]

/-- JSON values as serde_json produces them for the competition record:
object fields keep their serialisation order, integer and (finite) float
numbers are separate, strings hold rendered text. -/
inductive Json where
  | null
  | int (n : Int)
  | float (q : ℚ)
  | str (s : String)
  | arr (xs : List Json)
  | obj (fields : List (String × Json))

/-- `model::solver_competition::CompetitionAuction`: order UIDs (56-byte
values) and the `BTreeMap<H160, U256>` reference prices, represented as the
map's ascending-key entry list. -/
structure CompetitionAuction where
  orders : List Nat
  prices : List (Nat × Nat)
deriving DecidableEq, Repr

/-- `model::solver_competition::Objective` (f64 fields modelled as ℚ). -/
structure Objective where
  total : ℚ
  surplus : ℚ
  fees : ℚ
  cost : ℚ
  gas : Nat
deriving DecidableEq, Repr

/-- `model::solver_competition::Order`: an executed order inside a solver
solution. -/
structure CompOrder where
  id : Nat
  executed_amount : Nat
deriving DecidableEq, Repr

/-- `model::solver_competition::SolverSettlement`. -/
structure SolverSettlement where
  solver : String
  objective : Objective
  clearing_prices : List (Nat × Nat)
  orders : List CompOrder
  call_data : List Nat
deriving DecidableEq, Repr

/-- `model::solver_competition::SolverCompetition`. -/
structure SolverCompetition where
  auction_id : Int
  gas_price : ℚ
  auction_start_block : Nat
  liquidity_collected_block : Nat
  competition_simulation_block : Nat
  transaction_hash : Option Nat
  auction : CompetitionAuction
  solutions : List SolverSettlement
deriving DecidableEq, Repr

/-- Decimal-string JSON value of a `U256` (`u256_decimal::DecimalU256`). -/
def serializeU256 (n : Nat) : Json := Json.str (String.mk (decChars n))

/-- `0x`-prefixed fixed-width hex string. -/
def hex0xString (w n : Nat) : String := String.mk ('0' :: 'x' :: hexFixed w n)

/-- Serialised `BTreeMap<H160, U256>`: one object entry per map entry, in map
(ascending key) order, addresses as 40-digit `0x`-hex keys, values as decimal
strings. -/
def serializePrices (l : List (Nat × Nat)) : Json :=
  Json.obj (l.map fun p => (hex0xString 40 p.1, serializeU256 p.2))

/-- Serialised optional `H256` transaction hash: `null` or 64-digit hex. -/
def serializeTxHash : Option Nat → Json
  | none => Json.null
  | some h => Json.str (hex0xString 64 h)

/-- Serialised call data (`bytes_hex`): `0x` followed by two hex digits per
byte. -/
def serializeCallData (bs : List Nat) : Json :=
  Json.str (String.mk ('0' :: 'x' :: (bs.map (hexFixed 2)).flatten))

/-- Serialised `Objective`, camelCase keys in declaration order. -/
def serializeObjective (o : Objective) : Json :=
  Json.obj
    [("total", Json.float o.total), ("surplus", Json.float o.surplus),
     ("fees", Json.float o.fees), ("cost", Json.float o.cost),
     ("gas", Json.int (o.gas : Int))]

/-- Serialised solution order entry. -/
def serializeCompOrder (o : CompOrder) : Json :=
  Json.obj
    [("id", Json.str (hex0xString 112 o.id)),
     ("executedAmount", serializeU256 o.executed_amount)]

/-- Serialised `SolverSettlement`. -/
def serializeSettlement (s : SolverSettlement) : Json :=
  Json.obj
    [("solver", Json.str s.solver),
     ("objective", serializeObjective s.objective),
     ("clearingPrices", serializePrices s.clearing_prices),
     ("orders", Json.arr (s.orders.map serializeCompOrder)),
     ("callData", serializeCallData s.call_data)]

/-- Serialised `CompetitionAuction`. -/
def serializeCompetitionAuction (a : CompetitionAuction) : Json :=
  Json.obj
    [("orders", Json.arr (a.orders.map fun u => Json.str (hex0xString 112 u))),
     ("prices", serializePrices a.prices)]

/-- Serialised `SolverCompetition`: camelCase keys in struct declaration
order. -/
def serializeSolverCompetition (r : SolverCompetition) : Json :=
  Json.obj
    [("auctionId", Json.int r.auction_id),
     ("gasPrice", Json.float r.gas_price),
     ("auctionStartBlock", Json.int (r.auction_start_block : Int)),
     ("liquidityCollectedBlock", Json.int (r.liquidity_collected_block : Int)),
     ("competitionSimulationBlock", Json.int (r.competition_simulation_block : Int)),
     ("transactionHash", serializeTxHash r.transaction_hash),
     ("auction", serializeCompetitionAuction r.auction),
     ("solutions", Json.arr (r.solutions.map serializeSettlement))]

/-- Look a field up by name in an object's entry list (first occurrence, as
serde does for the declared fields). -/
def getField : List (String × Json) → String → Option Json
  | [], _ => none
  | (k, v) :: rest, key => if k = key then some v else getField rest key

/-- Parse an i64 JSON number. -/
def parseI64 : Json → Option Int
  | Json.int i => some i
  | _ => none

/-- Parse a u64 JSON number. -/
def parseU64 : Json → Option Nat
  | Json.int i => if 0 ≤ i then some i.toNat else none
  | _ => none

/-- Parse a (finite) f64 JSON number. -/
def parseF64 : Json → Option ℚ
  | Json.float q => some q
  | _ => none

/-- Parse a JSON string. -/
def parseString : Json → Option String
  | Json.str s => some s
  | _ => none

/-- Parse a decimal-string `U256`. -/
def parseDecStr : Json → Option Nat
  | Json.str s => parseDec s.data
  | _ => none

/-- Parse a `0x`-prefixed hex string of exactly `w` digits. -/
def parse0xFixed (w : Nat) (s : String) : Option Nat :=
  match s.data with
  | '0' :: 'x' :: rest => if rest.length = w then parseHexLE rest.reverse else none
  | _ => none

/-- Parse an order UID (56 bytes, 112 hex digits). -/
def parseUid : Json → Option Nat
  | Json.str s => parse0xFixed 112 s
  | _ => none

/-- Parse the nullable transaction hash. -/
def parseTxHash : Json → Option (Option Nat)
  | Json.null => some none
  | Json.str s => (parse0xFixed 64 s).map some
  | _ => none

/-- Parse `bytes_hex` call data. -/
def parseCallData : Json → Option (List Nat)
  | Json.str s =>
    match s.data with
    | '0' :: 'x' :: rest => parseHexBytes rest
    | _ => none
  | _ => none

/-- Parse one price-map entry. -/
def parsePriceEntry (e : String × Json) : Option (Nat × Nat) :=
  match parse0xFixed 40 e.1, parseDecStr e.2 with
  | some a, some v => some (a, v)
  | _, _ => none

/-- Parse a serialised `BTreeMap<H160, U256>`. -/
def parsePrices : Json → Option (List (Nat × Nat))
  | Json.obj fields => fields.mapM parsePriceEntry
  | _ => none

/-- Parse a JSON array elementwise. -/
def parseArr {α : Type} (p : Json → Option α) : Json → Option (List α)
  | Json.arr xs => xs.mapM p
  | _ => none

/-- Parse an `Objective`. -/
def parseObjective : Json → Option Objective
  | Json.obj f => do
    let total ← (getField f "total").bind parseF64
    let surplus ← (getField f "surplus").bind parseF64
    let fees ← (getField f "fees").bind parseF64
    let cost ← (getField f "cost").bind parseF64
    let gas ← (getField f "gas").bind parseU64
    some { total := total, surplus := surplus, fees := fees, cost := cost, gas := gas }
  | _ => none

/-- Parse a solution order entry. -/
def parseCompOrder : Json → Option CompOrder
  | Json.obj f => do
    let id ← (getField f "id").bind parseUid
    let ex ← (getField f "executedAmount").bind parseDecStr
    some { id := id, executed_amount := ex }
  | _ => none

/-- Parse a `SolverSettlement`. -/
def parseSettlement : Json → Option SolverSettlement
  | Json.obj f => do
    let solver ← (getField f "solver").bind parseString
    let objective ← (getField f "objective").bind parseObjective
    let clearing ← (getField f "clearingPrices").bind parsePrices
    let orders ← (getField f "orders").bind (parseArr parseCompOrder)
    let call_data ← (getField f "callData").bind parseCallData
    some { solver := solver, objective := objective, clearing_prices := clearing,
           orders := orders, call_data := call_data }
  | _ => none

/-- Parse a `CompetitionAuction`. -/
def parseCompetitionAuction : Json → Option CompetitionAuction
  | Json.obj f => do
    let orders ← (getField f "orders").bind (parseArr parseUid)
    let prices ← (getField f "prices").bind parsePrices
    some { orders := orders, prices := prices }
  | _ => none

/-- Deserialise a `SolverCompetition`.  A missing `auctionId` field
deserialises to 0 (the `#[serde(default)]` on the field); a missing
`transactionHash` deserialises to `None` (serde's handling of `Option`
fields); every other missing field is an error (`none`). -/
def deserializeSolverCompetition : Json → Option SolverCompetition
  | Json.obj f => do
    let auction_id ←
      match getField f "auctionId" with
      | none => some 0
      | some v => parseI64 v
    let gas_price ← (getField f "gasPrice").bind parseF64
    let auction_start_block ← (getField f "auctionStartBlock").bind parseU64
    let liquidity_collected_block ← (getField f "liquidityCollectedBlock").bind parseU64
    let competition_simulation_block ←
      (getField f "competitionSimulationBlock").bind parseU64
    let transaction_hash ←
      match getField f "transactionHash" with
      | none => some none
      | some v => parseTxHash v
    let auction ← (getField f "auction").bind parseCompetitionAuction
    let solutions ← (getField f "solutions").bind (parseArr parseSettlement)
    some { auction_id := auction_id, gas_price := gas_price,
           auction_start_block := auction_start_block,
           liquidity_collected_block := liquidity_collected_block,
           competition_simulation_block := competition_simulation_block,
           transaction_hash := transaction_hash, auction := auction,
           solutions := solutions }
  | _ => none

/-- Bound on an optional transaction hash value (32 bytes). -/
def txHashBound : Option Nat → Prop
  | none => True
  | some h => h < 16 ^ 64

instance : (o : Option Nat) → Decidable (txHashBound o)
  | none => isTrue trivial
  | some _ => Nat.decLt _ _

/-- Strict ascending order of the keys of a price entry list (the `BTreeMap`
iteration-order invariant). -/
def sortedKeys : List (Nat × Nat) → Bool
  | [] => true
  | [_] => true
  | p :: q :: rest => decide (p.1 < q.1) && sortedKeys (q :: rest)

/-- A price entry list stands for a `BTreeMap<H160, U256>`: keys strictly
ascending, each one a 20-byte address value. -/
def WFPrices (l : List (Nat × Nat)) : Prop :=
  sortedKeys l = true ∧ ∀ p ∈ l, p.1 < 16 ^ 40

instance (l : List (Nat × Nat)) : Decidable (WFPrices l) :=
  inferInstanceAs (Decidable (sortedKeys l = true ∧ ∀ p ∈ l, p.1 < 16 ^ 40))

/-- Structural bounds a Rust `SolverSettlement` satisfies by construction:
clearing prices form a `BTreeMap`, order ids are 56-byte values, call data is
bytes. -/
def WFSettlement (s : SolverSettlement) : Prop :=
  WFPrices s.clearing_prices ∧ (∀ o ∈ s.orders, o.id < 16 ^ 112) ∧
    ∀ b ∈ s.call_data, b < 256

instance (s : SolverSettlement) : Decidable (WFSettlement s) :=
  inferInstanceAs
    (Decidable (WFPrices s.clearing_prices ∧ (∀ o ∈ s.orders, o.id < 16 ^ 112) ∧
      ∀ b ∈ s.call_data, b < 256))

/-- Structural bounds a Rust `SolverCompetition` satisfies by construction. -/
def WFCompetition (r : SolverCompetition) : Prop :=
  (∀ u ∈ r.auction.orders, u < 16 ^ 112) ∧ WFPrices r.auction.prices ∧
    txHashBound r.transaction_hash ∧ ∀ s ∈ r.solutions, WFSettlement s

instance (r : SolverCompetition) : Decidable (WFCompetition r) :=
  inferInstanceAs
    (Decidable ((∀ u ∈ r.auction.orders, u < 16 ^ 112) ∧ WFPrices r.auction.prices ∧
      txHashBound r.transaction_hash ∧ ∀ s ∈ r.solutions, WFSettlement s))

lemma parse0xFixed_roundtrip (w n : Nat) (h : n < 16 ^ w) :
    parse0xFixed w (hex0xString w n) = some n := by
  rw [hex0xString, parse0xFixed]
  simp [hexFixed_length, parseHexLE_hexFixed w n h]

lemma parseDecStr_serializeU256 (n : Nat) : parseDecStr (serializeU256 n) = some n :=
  parseDec_decChars n

lemma parseU64_int (n : Nat) : parseU64 (Json.int (n : Int)) = some n := by
  simp [parseU64]

lemma parseTxHash_roundtrip (o : Option Nat) (h : txHashBound o) :
    parseTxHash (serializeTxHash o) = some o := by
  cases o with
  | none => rfl
  | some v =>
      rw [serializeTxHash, parseTxHash, parse0xFixed_roundtrip 64 v h]
      rfl

lemma parseCallData_roundtrip (bs : List Nat) (h : ∀ b ∈ bs, b < 256) :
    parseCallData (serializeCallData bs) = some bs := by
  rw [serializeCallData, parseCallData]
  exact parseHexBytes_roundtrip bs h

lemma mapM_map_roundtrip {α β : Type} (p : β → Option α) (s : α → β) :
    ∀ l : List α, (∀ x ∈ l, p (s x) = some x) → (l.map s).mapM p = some l := by
  intro l
  induction l with
  | nil => intro _; rfl
  | cons x xs ih =>
      intro h
      rw [List.map_cons, List.mapM_cons, h x (by simp),
        ih (fun y hy => h y (List.mem_cons_of_mem _ hy))]
      rfl

lemma mapM_loop_roundtrip {α β : Type} (p : β → Option α) (s : α → β)
    (l : List α) (h : ∀ x ∈ l, p (s x) = some x) :
    List.mapM.loop p (l.map s) [] = some l :=
  mapM_map_roundtrip p s l h

lemma parsePriceEntry_roundtrip (p : Nat × Nat) (h : p.1 < 16 ^ 40) :
    parsePriceEntry (hex0xString 40 p.1, serializeU256 p.2) = some p := by
  rw [parsePriceEntry]
  simp only [parse0xFixed_roundtrip 40 p.1 h, parseDecStr_serializeU256]

lemma parsePrices_roundtrip (l : List (Nat × Nat)) (h : ∀ p ∈ l, p.1 < 16 ^ 40) :
    parsePrices (serializePrices l) = some l := by
  rw [serializePrices, parsePrices]
  exact mapM_map_roundtrip _ _ l (fun p hp => parsePriceEntry_roundtrip p (h p hp))

lemma parseObjective_roundtrip (o : Objective) :
    parseObjective (serializeObjective o) = some o := by
  rw [serializeObjective, parseObjective]
  simp [getField, parseF64, parseU64_int]

lemma parseCompOrder_roundtrip (o : CompOrder) (h : o.id < 16 ^ 112) :
    parseCompOrder (serializeCompOrder o) = some o := by
  rw [serializeCompOrder, parseCompOrder]
  simp [getField, parseUid, parse0xFixed_roundtrip 112 o.id h, parseDecStr_serializeU256]

lemma parseSettlement_roundtrip (s : SolverSettlement) (h : WFSettlement s) :
    parseSettlement (serializeSettlement s) = some s := by
  obtain ⟨hp, ho, hb⟩ := h
  rw [serializeSettlement, parseSettlement]
  simp [getField, parseString, parseObjective_roundtrip,
    parsePrices_roundtrip s.clearing_prices hp.2, parseArr,
    mapM_loop_roundtrip parseCompOrder serializeCompOrder s.orders
      (fun o hoo => parseCompOrder_roundtrip o (ho o hoo)),
    parseCallData_roundtrip s.call_data hb]

lemma parseCompetitionAuction_roundtrip (a : CompetitionAuction)
    (ho : ∀ u ∈ a.orders, u < 16 ^ 112) (hp : WFPrices a.prices) :
    parseCompetitionAuction (serializeCompetitionAuction a) = some a := by
  rw [serializeCompetitionAuction, parseCompetitionAuction]
  simp [getField, parseArr,
    mapM_loop_roundtrip parseUid (fun u => Json.str (hex0xString 112 u)) a.orders
      (fun u hu => by
        rw [parseUid]
        exact parse0xFixed_roundtrip 112 u (ho u hu)),
    parsePrices_roundtrip a.prices hp.2]

lemma deserialize_serialize_roundtrip (r : SolverCompetition) (h : WFCompetition r) :
    deserializeSolverCompetition (serializeSolverCompetition r) = some r := by
  obtain ⟨ho, hp, ht, hs⟩ := h
  rw [serializeSolverCompetition, deserializeSolverCompetition]
  simp [getField, parseI64, parseF64, parseU64_int,
    parseTxHash_roundtrip r.transaction_hash ht,
    parseCompetitionAuction_roundtrip r.auction ho hp, parseArr,
    mapM_loop_roundtrip parseSettlement serializeSettlement r.solutions
      (fun s hss => parseSettlement_roundtrip s (hs s hss))]

/-- Keys of a JSON object, in serialisation order. -/
def objKeys : Json → List String
  | Json.obj f => f.map Prod.fst
  | _ => []

/-- Fields of a JSON object. -/
def objFields : Json → List (String × Json)
  | Json.obj f => f
  | _ => []

/-- Drop a field from an object's entry list (a legacy record stored before
the field existed). -/
def removeField (key : String) (f : List (String × Json)) : List (String × Json) :=
  f.filter fun e => e.1 != key

lemma prices_keys_sorted (l : List (Nat × Nat)) (h : WFPrices l) :
    List.Chain' (fun a b => lexLt a.data b.data = true)
      (l.map fun p => hex0xString 40 p.1) := by
  obtain ⟨hc, hb⟩ := h
  induction l with
  | nil => simp
  | cons p rest ih =>
      cases rest with
      | nil => simp
      | cons q rest' =>
          simp only [sortedKeys, Bool.and_eq_true, decide_eq_true_eq] at hc
          rw [List.map_cons, List.map_cons, List.chain'_cons]
          refine ⟨?_, ?_⟩
          · have hpq : p.1 < q.1 := hc.1
            have hqb : q.1 < 16 ^ 40 := hb q (by simp)
            have e1 : (hex0xString 40 p.1).data = '0' :: 'x' :: hexFixed 40 p.1 := rfl
            have e2 : (hex0xString 40 q.1).data = '0' :: 'x' :: hexFixed 40 q.1 := rfl
            show lexLt (hex0xString 40 p.1).data (hex0xString 40 q.1).data = true
            rw [e1, e2, lexLt_cons_same, lexLt_cons_same]
            exact hexFixed_lexLt 40 p.1 q.1 hpq hqb
          · exact ih hc.2 (fun x hx => hb x (List.mem_cons_of_mem _ hx))

/-- C6: serialising a `SolverCompetition` and deserialising the result gives
back an equal record; the JSON object uses the camelCase field names in
declaration order, the price maps are objects of decimal strings under
lexicographically ordered `0x`-hex address keys, and the call data is a
`0x`-prefixed hex string.  The hypothesis `WFCompetition` records the bounds
and map-ordering a Rust record carries by construction. -/
theorem solver_competition_json_roundtrip (r : SolverCompetition)
    (h : WFCompetition r) :
    deserializeSolverCompetition (serializeSolverCompetition r) = some r ∧
    objKeys (serializeSolverCompetition r) =
      ["auctionId", "gasPrice", "auctionStartBlock", "liquidityCollectedBlock",
       "competitionSimulationBlock", "transactionHash", "auction", "solutions"] ∧
    serializePrices r.auction.prices
      = Json.obj (r.auction.prices.map fun p =>
          (hex0xString 40 p.1, Json.str (String.mk (decChars p.2)))) ∧
    List.Chain' (fun a b => lexLt a.data b.data = true)
      (r.auction.prices.map fun p => hex0xString 40 p.1) ∧
    (∀ s ∈ r.solutions,
      List.Chain' (fun a b => lexLt a.data b.data = true)
        (s.clearing_prices.map fun p => hex0xString 40 p.1)) ∧
    (∀ s ∈ r.solutions,
      serializeCallData s.call_data
        = Json.str (String.mk ('0' :: 'x' :: (s.call_data.map (hexFixed 2)).flatten))) := by
  refine ⟨deserialize_serialize_roundtrip r h, rfl, rfl, ?_, ?_, fun s _ => rfl⟩
  · exact prices_keys_sorted r.auction.prices h.2.1
  · intro s hss
    exact prices_keys_sorted s.clearing_prices ((h.2.2.2 s hss).1)

/-- The concrete competition record of the serialisation unit test. -/
def recordEx : SolverCompetition :=
  { auction_id := 0
    gas_price := 1
    auction_start_block := 13
    liquidity_collected_block := 14
    competition_simulation_block := 15
    transaction_hash := some 5
    auction :=
      { orders := [17, 34, 51]
        prices := [(17, 1000), (34, 2000), (51, 3000)] }
    solutions :=
      [{ solver := "2"
         objective := { total := 3, surplus := 4, fees := 5, cost := 6, gas := 7 }
         clearing_prices := [(34, 8)]
         orders := [{ id := 51, executed_amount := 12 }]
         call_data := [19] }] }

/-- Witness for C6: the unit-test record round-trips and its serialised form
carries the camelCase keys. -/
theorem solver_competition_json_roundtrip_witness :
    deserializeSolverCompetition (serializeSolverCompetition recordEx) = some recordEx ∧
    objKeys (serializeSolverCompetition recordEx) =
      ["auctionId", "gasPrice", "auctionStartBlock", "liquidityCollectedBlock",
       "competitionSimulationBlock", "transactionHash", "auction", "solutions"] :=
  ⟨(solver_competition_json_roundtrip recordEx (by decide)).1,
   (solver_competition_json_roundtrip recordEx (by decide)).2.1⟩

/-- C10: a record JSON lacking the `auctionId` field still deserialises, its
`auction_id` defaulting to 0, so legacy records stored before auction ids
existed load instead of failing. -/
theorem legacy_missing_auction_id (r : SolverCompetition) (h : WFCompetition r) :
    deserializeSolverCompetition
        (Json.obj (removeField "auctionId" (objFields (serializeSolverCompetition r))))
      = some { r with auction_id := 0 } := by
  obtain ⟨ho, hp, ht, hs⟩ := h
  have hrm : removeField "auctionId" (objFields (serializeSolverCompetition r))
      = [("gasPrice", Json.float r.gas_price),
         ("auctionStartBlock", Json.int (r.auction_start_block : Int)),
         ("liquidityCollectedBlock", Json.int (r.liquidity_collected_block : Int)),
         ("competitionSimulationBlock", Json.int (r.competition_simulation_block : Int)),
         ("transactionHash", serializeTxHash r.transaction_hash),
         ("auction", serializeCompetitionAuction r.auction),
         ("solutions", Json.arr (r.solutions.map serializeSettlement))] := rfl
  rw [hrm, deserializeSolverCompetition]
  simp [getField, parseI64, parseF64, parseU64_int,
    parseTxHash_roundtrip r.transaction_hash ht,
    parseCompetitionAuction_roundtrip r.auction ho hp, parseArr,
    mapM_loop_roundtrip parseSettlement serializeSettlement r.solutions
      (fun s hss => parseSettlement_roundtrip s (hs s hss))]

/-- Witness for C10: the unit-test record with `auctionId` stripped loads
with `auction_id = 0`. -/
theorem legacy_missing_auction_id_witness :
    deserializeSolverCompetition
        (Json.obj (removeField "auctionId" (objFields (serializeSolverCompetition recordEx))))
      = some { recordEx with auction_id := 0 } :=
  legacy_missing_auction_id recordEx (by decide)

/-- `orderbook::solver_competition::Identifier`: a competition record is
addressed either by auction id or by settlement transaction hash. -/
inductive Identifier where
  | id (i : Int)
  | transaction (h : Nat)
deriving DecidableEq, Repr

/-- `orderbook::solver_competition::LoadSolverCompetitionError`.  Modelled
from the spec: the enum is declared in
`crates/orderbook/src/solver_competition.rs`, which is not among the
sources; the spec says "`NotFound` is a first-class kind distinct from
infrastructure errors", the latter wrapped anyhow errors. -/
inductive LoadSolverCompetitionError where
  | notFound
  | other (msg : String)
deriving DecidableEq, Repr

/-- Collaborators of `SolverCompetitionStoring::load` for `Postgres`: the
pool connection acquisition and the two `database::solver_competition`
queries, each returning the stored JSON if a row exists. -/
structure CompetitionStore where
  acquire : Except String Unit
  load_by_id : Int → Except String (Option Json)
  load_by_tx_hash : Nat → Except String (Option Json)

/-- The query `load` dispatches on the identifier. -/
def queryCompetition (db : CompetitionStore) : Identifier → Except String (Option Json)
  | Identifier.id i => db.load_by_id i
  | Identifier.transaction h => db.load_by_tx_hash h

/-- `SolverCompetitionStoring::load` for `Postgres`: acquire a connection,
run the query for the identifier (failures wrapped with the "failed to get
solver competition by ID" context), map an absent row to `NotFound` and
deserialise a present one (failures wrapped as infrastructure errors). -/
def load (db : CompetitionStore) (ident : Identifier) :
    Except LoadSolverCompetitionError SolverCompetition :=
  match db.acquire with
  | Except.error e => Except.error (LoadSolverCompetitionError.other e)
  | Except.ok _ =>
    match queryCompetition db ident with
    | Except.error e =>
        Except.error (LoadSolverCompetitionError.other
          ("failed to get solver competition by ID: " ++ e))
    | Except.ok none => Except.error LoadSolverCompetitionError.notFound
    | Except.ok (some v) =>
      match deserializeSolverCompetition v with
      | none =>
          Except.error (LoadSolverCompetitionError.other "failed to deserialize")
      | some r => Except.ok r

/-- C7: when no record exists for the identifier (the query returns no row),
`load` returns the `NotFound` error kind, and `NotFound` is distinguishable
from every infrastructure error (connection or deserialisation failures,
which are all wrapped in the `other` kind). -/
theorem load_unknown_returns_not_found (db : CompetitionStore) (ident : Identifier)
    (hacq : db.acquire = Except.ok ())
    (hq : queryCompetition db ident = Except.ok none) :
    load db ident = Except.error LoadSolverCompetitionError.notFound ∧
    ∀ e, LoadSolverCompetitionError.notFound ≠ LoadSolverCompetitionError.other e := by
  refine ⟨?_, ?_⟩
  · rw [load, hacq, hq]
  · intro e he
    cases he

/-- A store holding no records at all. -/
def emptyStore : CompetitionStore :=
  { acquire := Except.ok ()
    load_by_id := fun _ => Except.ok none
    load_by_tx_hash := fun _ => Except.ok none }

/-- Witness for C7: loading any transaction hash from the empty store yields
`NotFound`, which differs from a connection-failure error. -/
theorem load_unknown_returns_not_found_witness :
    load emptyStore (Identifier.transaction 0)
        = Except.error LoadSolverCompetitionError.notFound ∧
    LoadSolverCompetitionError.notFound
        ≠ LoadSolverCompetitionError.other "failed to acquire connection" :=
  ⟨(load_unknown_returns_not_found emptyStore (Identifier.transaction 0) rfl rfl).1,
   (load_unknown_returns_not_found emptyStore (Identifier.transaction 0) rfl rfl).2
     "failed to acquire connection"⟩
